import Mathlib

/- Shallow embedding of kalkspace/stroma-streama (src/main.go).

   The Go program is a single-producer live audio broadcaster.  A broadcast
   loop (setupAudio, lines 347-463) captures PCM, encodes one Opus frame per
   10 ms tick into a shared buffer encBuf, and fans the slice
   encBuf[:encSize] out to every registered peer through a bounded channel
   of capacity 10 (initConn, line 222: make(chan []byte, 10)).  A per-peer
   goroutine (initConn, lines 223-234) drains the channel into a WebRTC
   track.  An HTTP handler on POST /sdp (handleClient, lines 77-177)
   performs signaling; a connection-state callback (initConn, lines
   238-252) mirrors WebRTC state into an atomic per-peer state word and the
   Prometheus counters.

   Each model below names the lines of main.go it embeds.  Byte slices are
   modelled as List Nat, Go maps keyed by increasing uint64 ids as lists,
   and each concurrent interaction as an explicit event interleaving. -/

/- Per-peer connection state, main.go lines 187-201.  The zero value of
   ConnectionState (iota order) is Disconnected. -/
inductive ConnState where
  | Disconnected
  | Connected
  | Closed
deriving DecidableEq

/- ===== Model of the connection-state callback, main.go lines 238-252 =====

   rtcConn.OnConnectionStateChange fires with a pion PeerConnectionState.
   The cases the switch handles are Connected, Disconnected and
   Closed/Failed; every other state (new, connecting, ...) falls through
   with no effect and is modelled by the single event `other`. -/
inductive PCSEv where
  | connected
  | disconnected
  | closed
  | failed
  | other
deriving DecidableEq

/- Observable effects of the callback for one peer: the atomic state word,
   the number of sends of this conn on the clientConnected channel
   (line 242), and this peer's contribution to the Prometheus metrics
   streama_current_clients (gauge, lines 243/247/250) and
   streama_total_clients (counter, line 244). -/
structure CbState where
  state : ConnState
  handoffs : Nat
  current : Int
  total : Nat
deriving DecidableEq

/- One invocation of the callback, main.go lines 239-251. -/
def cbStep (e : PCSEv) (s : CbState) : CbState :=
  match e with
  | PCSEv.connected =>
      { state := ConnState.Connected, handoffs := s.handoffs + 1,
        current := s.current + 1, total := s.total + 1 }
  | PCSEv.disconnected =>
      { s with state := ConnState.Disconnected, current := s.current - 1 }
  | PCSEv.closed =>
      { s with state := ConnState.Closed, current := s.current - 1 }
  | PCSEv.failed =>
      { s with state := ConnState.Closed, current := s.current - 1 }
  | PCSEv.other => s

/- Initial per-peer callback state: state := new(ConnectionState) is the
   zero value Disconnected (line 236); no handoff yet; this peer has not
   yet touched either metric. -/
def cbInit : CbState := ⟨ConnState.Disconnected, 0, 0, 0⟩

def runCb (evs : List PCSEv) : CbState := evs.foldl (fun s e => cbStep e s) cbInit

/- ===== Model of the shared encode buffer and one peer's sender =====

   main.go lines 292-293: encBuf := make([]byte, 1024) is allocated once.
   Line 411: opusEnc.Encode(inBuf, encBuf) overwrites its first encSize
   bytes each tick.  Line 442: conn.frames <- encBuf[:encSize] enqueues a
   Go slice, i.e. a (pointer-to-encBuf, length) pair — NOT a copy of the
   bytes.  Lines 225-229: the per-peer sender later reads the slice's
   bytes (whatever encBuf holds at that moment) and hands them to
   audioTrack.WriteSample.  A queued frame is therefore represented by its
   length alone; its bytes are read from the buffer at consume time. -/
def encBufSize : Nat := 1024

structure AudioState where
  encBuf : List Nat
  frames : List Nat
  written : List (List Nat)

def audioInit : AudioState := ⟨List.replicate encBufSize 0, [], []⟩

inductive AudioEv where
  | encode (bytes : List Nat)
  | consume

/- encode bytes: one tick of lines 411 and 441-446 for a CONNECTED peer —
   the encoder overwrites the buffer prefix with `bytes`, then the loop
   performs the non-blocking enqueue of encBuf[:bytes.length].
   consume: lines 225-229 — the sender dequeues the next slice and writes
   the bytes it refers to NOW (current buffer prefix) to the track. -/
def audioStep (s : AudioState) : AudioEv → AudioState
  | AudioEv.encode bytes =>
      let buf := bytes ++ s.encBuf.drop bytes.length
      if s.frames.length < 10 then
        { s with encBuf := buf, frames := s.frames ++ [bytes.length] }
      else
        { s with encBuf := buf }
  | AudioEv.consume =>
      match s.frames with
      | [] => s
      | n :: rest => { s with frames := rest, written := s.written ++ [s.encBuf.take n] }

def audioRun (evs : List AudioEv) : AudioState := evs.foldl audioStep audioInit

/- ===== Model of the broadcast fan-out, main.go lines 347-463 =====

   The loop owns the clients and stats maps (lines 353-354), keyed by the
   strictly increasing nextID.  One registry entry per handed-off conn:
   its id, whether it is still in the clients map, the channel buffer
   (frame indices, the t-th produced EncodedFrame being index t), the
   channel's closed flag, the frames the per-peer sender has written to
   the track so far, and the clientStat counters (lines 275-278). -/
structure Entry where
  id : Nat
  registered : Bool
  queue : List Nat
  closed : Bool
  delivered : List Nat
  sent : Nat
  dropped : Nat
deriving DecidableEq

/- A freshly registered peer, lines 375-378 / 384-387: empty channel made
   with capacity 10 (line 222) and zeroed clientStat. -/
def freshEntry (id : Nat) : Entry := ⟨id, true, [], false, [], 0, 0⟩

/- One registry entry's share of a tick, main.go lines 425-446.
   `obs e.id` is the value conn.state.Get() returns at line 426.
   Closed: close(conn.frames), delete from stats and clients (428-436).
   Disconnected: continue — no enqueue, no drop (437-438).
   Connected: non-blocking send (441-446) — the capacity-10 channel accepts
   iff its buffer holds fewer than 10 frames; success bumps sent, the
   default branch bumps dropped. -/
def tickEntry (frameIdx : Nat) (obs : Nat → ConnState) (e : Entry) : Entry :=
  if e.registered then
    match obs e.id with
    | ConnState.Closed => { e with registered := false, closed := true }
    | ConnState.Disconnected => e
    | ConnState.Connected =>
        if e.queue.length < 10 then
          { e with queue := e.queue ++ [frameIdx], sent := e.sent + 1 }
        else
          { e with dropped := e.dropped + 1 }
  else e

/- One step of the per-peer sender, main.go lines 224-233: receive the
   next buffered frame and write it to the track.  Receiving from a
   non-empty channel succeeds whether or not the channel is closed; on an
   empty channel the sender blocks (or, if closed, exits) — a no-op here. -/
def consumeEntry (c : Nat) (e : Entry) : Entry :=
  if e.id = c then
    match e.queue with
    | [] => e
    | f :: rest => { e with queue := rest, delivered := e.delivered ++ [f] }
  else e

structure BState where
  ticks : Nat
  nextID : Nat
  entries : List Entry

def bInit : BState := ⟨0, 0, []⟩

/- Interleaving events: join = the loop receives a fresh conn from
   clientConnected and registers it (lines 375-378 / 384-387); tick = one
   capture-encode-fanout iteration delivering the next frame index
   (lines 399-446), with obs giving each peer's atomically observed state;
   consume c = peer c's sender performs one receive (lines 225-229). -/
inductive Ev where
  | join
  | tick (obs : Nat → ConnState)
  | consume (c : Nat)

def step2 (s : BState) : Ev → BState
  | Ev.join =>
      { s with entries := s.entries ++ [freshEntry s.nextID], nextID := s.nextID + 1 }
  | Ev.tick obs =>
      { s with ticks := s.ticks + 1, entries := s.entries.map (tickEntry s.ticks obs) }
  | Ev.consume c =>
      { s with entries := s.entries.map (consumeEntry c) }

def run2 (evs : List Ev) : BState := evs.foldl step2 bInit

/- Spec vocabulary for claim C3: frame frameIdx entered the peer's queue
   on this tick / was counted as dropped on this tick. -/
def enqueuedThisTick (before after : Entry) (frameIdx : Nat) : Prop :=
  after.queue = before.queue ++ [frameIdx]

def droppedThisTick (before after : Entry) : Prop :=
  after.dropped = before.dropped + 1

/- Spec vocabulary for claim C8: a contiguous block a, a+1, ..., a+k-1. -/
def isContiguous (l : List Nat) : Bool :=
  match l with
  | [] => true
  | a :: rest => (a :: rest) == List.range' a (rest.length + 1)

def obsConnected : Nat → ConnState := fun _ => ConnState.Connected

/- ===== Conn-identity model of the fan-out, main.go lines 222, 238-244
   and 347-463, for claim C8 =====

   The per-entry model above gives every registry entry its own queue,
   which matches the code only while each conn is handed to the loop at
   most once.  Because the callback re-sends the same *conn on every
   CONNECTED transition (lines 240-244), the clients map can hold the same
   conn under two ids whose entries share ONE channel and ONE track.  This
   model therefore keys the channel/track state by conn identity (the conn
   pointer) and lets a handoff repeat an identity. -/
structure ConnObj where
  queue : List Nat
  closed : Bool
  delivered : List Nat
deriving DecidableEq

/- Association-list update of the conn with identity c. -/
def updateConn (conns : List (Nat × ConnObj)) (c : Nat) (g : ConnObj → ConnObj) :
    List (Nat × ConnObj) :=
  conns.map (fun p => if p.1 = c then (p.1, g p.2) else p)

/- close(conn.frames), line 433. -/
def closeConnObj (o : ConnObj) : ConnObj := { o with closed := true }

/- The non-blocking send on the capacity-10 channel, lines 441-446. -/
def enqueueConnObj (frameIdx : Nat) (o : ConnObj) : ConnObj :=
  if o.queue.length < 10 then { o with queue := o.queue ++ [frameIdx] } else o

/- One receive by the sender, lines 225-229. -/
def consumeConnObj (o : ConnObj) : ConnObj :=
  match o.queue with
  | [] => o
  | f :: rest => { o with queue := rest, delivered := o.delivered ++ [f] }

/- One registry entry's share of a tick, lines 425-446, acting on the
   SHARED conn state: e is (registration id, conn identity), and obs is
   keyed by conn identity because conn.state lives in the conn. -/
def fanEntry (frameIdx : Nat) (obs : Nat → ConnState) (conns : List (Nat × ConnObj))
    (e : Nat × Nat) : List (Nat × ConnObj) :=
  match obs e.2 with
  | ConnState.Closed => updateConn conns e.2 closeConnObj
  | ConnState.Disconnected => conns
  | ConnState.Connected => updateConn conns e.2 (enqueueConnObj frameIdx)

structure CState where
  ticks : Nat
  nextID : Nat
  registry : List (Nat × Nat)
  conns : List (Nat × ConnObj)

def cInit : CState := ⟨0, 0, [], []⟩

/- handoff c: clientConnected delivers conn c — possibly a conn that is
   already registered, after a repeated CONNECTED transition — and the
   loop stores it under the fresh id nextID (lines 375-378 / 384-387);
   initConn allocated the conn object at its first appearance (lines
   222-237).  tick obs: one capture-encode-fanout iteration (lines
   399-446): each registry entry acts on its conn per the entry-by-entry
   switch, and the entries observed Closed are deleted from the map.
   consume c: conn c's sender performs one receive (lines 225-229). -/
inductive EvC where
  | handoff (c : Nat)
  | tick (obs : Nat → ConnState)
  | consume (c : Nat)

def stepC (s : CState) : EvC → CState
  | EvC.handoff c =>
      { ticks := s.ticks,
        nextID := s.nextID + 1,
        registry := s.registry ++ [(s.nextID, c)],
        conns := if (s.conns.lookup c).isSome then s.conns
                 else s.conns ++ [(c, ⟨[], false, []⟩)] }
  | EvC.tick obs =>
      { s with
        ticks := s.ticks + 1,
        registry := s.registry.filter
          (fun e => match obs e.2 with | ConnState.Closed => false | _ => true),
        conns := s.registry.foldl (fanEntry s.ticks obs) s.conns }
  | EvC.consume c => { s with conns := updateConn s.conns c consumeConnObj }

def runC (evs : List EvC) : CState := evs.foldl stepC cInit

/- The conn identities sent on clientConnected during a run. -/
def handoffIds (evs : List EvC) : List Nat :=
  evs.filterMap (fun ev => match ev with | EvC.handoff c => some c | _ => none)

/- Run refuting C8's contiguity by a drop: one peer, 11 ticks while
   CONNECTED (the 11th finds the capacity-10 channel full, so frame 10 is
   dropped), one receive, one more tick (frame 11 fills the freed slot),
   then the sender drains the channel. -/
def cGapEvs : List EvC :=
  EvC.handoff 0 ::
    (List.replicate 11 (EvC.tick obsConnected) ++
      (EvC.consume 0 :: (EvC.tick obsConnected :: List.replicate 10 (EvC.consume 0))))

/- Run refuting C8 by duplication: the same conn handed off twice sits in
   the registry under two ids sharing one channel, so a single tick
   enqueues its frame once per entry and the track receives it twice. -/
def cDupEvs : List EvC :=
  [EvC.handoff 0, EvC.handoff 0, EvC.tick obsConnected, EvC.consume 0, EvC.consume 0]

def cSubEvs : List EvC := [EvC.handoff 0, EvC.tick obsConnected, EvC.consume 0]

/- Invariant carried through every run of the fan-out model: no channel
   buffer ever exceeds its capacity 10, and the frames a peer has received
   followed by the frames still buffered form a subsequence of the
   production order 0, 1, ..., ticks-1. -/
def Inv2 (s : BState) : Prop :=
  ∀ e ∈ s.entries, e.queue.length ≤ 10 ∧
    (e.delivered ++ e.queue).Sublist (List.range s.ticks)

/- ===== Model of conn identity for claim C4, main.go lines 222, 238-244,
   375-389 and 425-436 =====

   The clientConnected channel carries *conn pointers.  Because the
   callback (lines 240-244) sends conn on EVERY transition to Connected,
   the same conn can be handed to the loop more than once and then sits in
   the clients map under two different ids, both referring to one
   channel.  This model tracks, per conn identity, how many times
   close(conn.frames) (line 433) has executed — Go panics when it runs a
   second time on the same channel. -/
structure Conn4 where
  closeCount : Nat
deriving DecidableEq

structure B4 where
  registry : List (Nat × Nat)
  conns : List (Nat × Conn4)
  nextID : Nat

def b4Init : B4 := ⟨[], [], 0⟩

def closeConn4 (conns : List (Nat × Conn4)) (c : Nat) : List (Nat × Conn4) :=
  conns.map (fun p => if p.1 = c then (p.1, ⟨p.2.closeCount + 1⟩) else p)

inductive Ev4 where
  | handoff (c : Nat)
  | tick (obs : Nat → ConnState)

/- handoff c: the loop receives conn c from clientConnected and stores it
   under the fresh id nextID (lines 375-378 / 384-387); a conn identity is
   allocated on its first appearance (initConn lines 222-237).
   tick obs: the fan-out prefix of one iteration (lines 425-436): every
   registry entry whose conn is observed Closed has close(conn.frames)
   executed and is deleted from the map. -/
def step4 (s : B4) : Ev4 → B4
  | Ev4.handoff c =>
      { registry := s.registry ++ [(s.nextID, c)],
        conns := if (s.conns.lookup c).isSome then s.conns else s.conns ++ [(c, ⟨0⟩)],
        nextID := s.nextID + 1 }
  | Ev4.tick obs =>
      { s with
        registry := s.registry.filter
          (fun e => match obs e.2 with | ConnState.Closed => false | _ => true),
        conns := s.registry.foldl
          (fun cs e => match obs e.2 with | ConnState.Closed => closeConn4 cs e.2 | _ => cs)
          s.conns }

def run4 (evs : List Ev4) : B4 := evs.foldl step4 b4Init

/- ===== Model of the broadcast loop's idle suspend/resume for claim C7,
   main.go lines 347-461 =====

   Projection of the loop onto the capture stream's running flag
   (`started`, line 351), the key set of the clients map, and nextID.
   One iteration = one trip around the for loop. -/
structure LoopState where
  started : Bool
  clients : List Nat
  nextID : Nat
deriving DecidableEq

def loopInit : LoopState := ⟨false, [], 0⟩

structure TickInput where
  arrival : Bool
  obs : Nat → ConnState

/- Lines 362-369: with an empty registry, abort the stream if it is
   running. -/
def idleAbort (s : LoopState) : LoopState :=
  if s.clients.isEmpty then
    (if s.started then { s with started := false } else s)
  else s

/- Lines 371-390: with an empty registry the loop blocks until a conn
   arrives (an iteration that completes therefore registered exactly one);
   otherwise a single non-blocking select may register one pending conn. -/
def addClients (s : LoopState) (inp : TickInput) : LoopState :=
  if s.clients.isEmpty then
    { s with clients := [s.nextID], nextID := s.nextID + 1 }
  else if inp.arrival then
    { s with clients := s.clients ++ [s.nextID], nextID := s.nextID + 1 }
  else s

/- Lines 392-397: start the stream if it is not running. -/
def ensureStarted (s : LoopState) : LoopState :=
  if s.started then s else { s with started := true }

/- Lines 425-436 projected onto the key set: entries observed Closed are
   deleted from the clients map. -/
def removeClosed (s : LoopState) (obs : Nat → ConnState) : LoopState :=
  { s with
    clients := s.clients.filter
      (fun id => match obs id with | ConnState.Closed => false | _ => true) }

/- One full iteration of the loop body, lines 357-461. -/
def iterate (s : LoopState) (inp : TickInput) : LoopState :=
  removeClosed (ensureStarted (addClients (idleAbort s) inp)) inp.obs

/- States of the loop at the top of an iteration (line 357). -/
inductive Reachable : LoopState → Prop where
  | init : Reachable loopInit
  | step (s : LoopState) (inp : TickInput) : Reachable s → Reachable (iterate s inp)

def c7Inp : TickInput := ⟨true, fun _ => ConnState.Closed⟩

/- ===== Model of the signaling handler, main.go lines 77-177 =====

   Environment outcomes of the fallible steps, in the order the handler
   runs them.  `ice` scripts the OnICECandidate observer: one Outcome per
   gathered candidate giving whether enc.Encode(&candidateInit)
   (line 167) succeeds; the end of the list is the nil candidate closing
   the channel.  `ctxBudget` bounds how many candidates are forwarded
   before the client's request context is done (line 157). -/
inductive Outcome where
  | ok
  | fail
deriving DecidableEq

structure HandlerInput where
  methodPost : Bool
  decodeOk : Bool
  decodeErr : String
  newPC : Outcome
  initC : Outcome
  setRemote : Outcome
  createAnswer : Outcome
  setLocal : Outcome
  flushable : Bool
  encodeAnswer : Outcome
  ctxBudget : Nat
  ice : List Outcome

/- The three shapes of top-level JSON object the handler writes to the
   response body: the SDP answer (line 147), a trickled ICE candidate
   (line 167), and the in-band error object (line 169). -/
inductive RespObj where
  | answer
  | candidate
  | errorObj
deriving DecidableEq

inductive HResp where
  | err (status : Nat) (body : String)
  | stream (objs : List RespObj)

/- The candidate-forwarding loop, main.go lines 154-175: stop when the
   request context is done, when the candidate channel closes, or — after
   writing the single error object — when encoding a candidate fails. -/
def iceObjects : Nat → List Outcome → List RespObj
  | _, [] => []
  | 0, _ => []
  | Nat.succ k, Outcome.ok :: rest => RespObj.candidate :: iceObjects k rest
  | Nat.succ _, Outcome.fail :: _ => [RespObj.errorObj]

/- main.go lines 81-176.  http.NotFound replies 404; a body that fails to
   decode as a JSON session description replies 400 with
   "invalid JSON: " + err; every later failure replies 500 via
   http.Error; otherwise the answer object is written first and the
   candidate loop appends the remaining objects. -/
def handleClient (inp : HandlerInput) : HResp :=
  if !inp.methodPost then HResp.err 404 "404 page not found"
  else if !inp.decodeOk then HResp.err 400 ("invalid JSON: " ++ inp.decodeErr)
  else if inp.newPC = Outcome.fail then HResp.err 500 "NewPeerConnection failed"
  else if inp.initC = Outcome.fail then HResp.err 500 "initConn failed"
  else if inp.setRemote = Outcome.fail then HResp.err 500 "SetRemoteDescription failed"
  else if inp.createAnswer = Outcome.fail then HResp.err 500 "CreateAnswer failed"
  else if inp.setLocal = Outcome.fail then HResp.err 500 "SetLocalDescription failed"
  else if !inp.flushable then HResp.err 500 "response writer is not flushable"
  else if inp.encodeAnswer = Outcome.fail then HResp.err 500 "failed to encode answer"
  else HResp.stream (RespObj.answer :: iceObjects inp.ctxBudget inp.ice)

def respStatus : HResp → Nat
  | HResp.err c _ => c
  | HResp.stream _ => 200

def respBody : HResp → String
  | HResp.err _ b => b
  | HResp.stream _ => ""

def c6Inp : HandlerInput :=
  { methodPost := true, decodeOk := true, decodeErr := "", newPC := Outcome.ok,
    initC := Outcome.ok, setRemote := Outcome.ok, createAnswer := Outcome.ok,
    setLocal := Outcome.ok, flushable := true, encodeAnswer := Outcome.ok,
    ctxBudget := 5, ice := [Outcome.ok, Outcome.ok, Outcome.fail] }

def c9InpA : HandlerInput :=
  { methodPost := false, decodeOk := true, decodeErr := "", newPC := Outcome.ok,
    initC := Outcome.ok, setRemote := Outcome.ok, createAnswer := Outcome.ok,
    setLocal := Outcome.ok, flushable := true, encodeAnswer := Outcome.ok,
    ctxBudget := 0, ice := [] }

def c9InpB : HandlerInput :=
  { methodPost := true, decodeOk := false, decodeErr := "unexpected end of input",
    newPC := Outcome.ok, initC := Outcome.ok, setRemote := Outcome.ok,
    createAnswer := Outcome.ok, setLocal := Outcome.ok, flushable := true,
    encodeAnswer := Outcome.ok, ctxBudget := 0, ice := [] }

def c9InpC : HandlerInput :=
  { methodPost := true, decodeOk := true, decodeErr := "", newPC := Outcome.ok,
    initC := Outcome.ok, setRemote := Outcome.fail, createAnswer := Outcome.ok,
    setLocal := Outcome.ok, flushable := true, encodeAnswer := Outcome.ok,
    ctxBudget := 0, ice := [] }

/- ===================== Theorems ===================== -/

/-- C1: the claim states that every frame the per-peer sender writes to the
track contains exactly the bytes the broadcast loop encoded on the tick
when the frame was enqueued, and that overwriting the shared encode buffer
never changes a frame still pending in a peer's queue.  The code violates
this: line 442 enqueues the slice encBuf[:encSize], which aliases the
buffer line 411 overwrites on the next tick.  Here tick 1 encodes [7, 7]
and enqueues that frame; tick 2 encodes [9] before the sender runs; the
sender then writes [9, 7] — the overwritten buffer prefix — instead of
[7, 7], and the second frame is written as [9]. -/
theorem frame_bytes_corrupted_by_overwrite :
    (audioRun [AudioEv.encode [7, 7], AudioEv.encode [9],
      AudioEv.consume, AudioEv.consume]).written = [[9, 7], [9]] ∧
    (audioRun [AudioEv.encode [7, 7], AudioEv.encode [9],
      AudioEv.consume, AudioEv.consume]).written.head? ≠ some [7, 7] := by
  refine ⟨rfl, by decide⟩

/-- C2: the claim states that the Peer is handed to the broadcast loop and
the counters bumped only on the FIRST transition to CONNECTED.  The switch
at main.go lines 239-244 has no first-transition guard: for the state
sequence CONNECTED, DISCONNECTED, CONNECTED the conn is sent on
clientConnected twice and both counters are incremented twice. -/
theorem handoff_and_counters_on_every_connected :
    (runCb [PCSEv.connected, PCSEv.disconnected, PCSEv.connected]).handoffs = 2 ∧
    (runCb [PCSEv.connected, PCSEv.disconnected, PCSEv.connected]).handoffs ≠ 1 ∧
    (runCb [PCSEv.connected, PCSEv.disconnected, PCSEv.connected]).total = 2 ∧
    (runCb [PCSEv.connected, PCSEv.disconnected, PCSEv.connected]).state =
      ConnState.Connected := by
  decide

/-- C10: in the connection-state callback the gauge streama_current_clients
moves by +1 on connected, 0 on unhandled states, and -1 on disconnected,
closed and failed alike; hence the sequence CONNECTED, DISCONNECTED,
CLOSED yields one increment and two decrements and the per-peer
contribution ends at -1, below zero. -/
theorem current_clients_gauge_behavior :
    (∀ (e : PCSEv) (s : CbState),
      (cbStep e s).current = s.current +
        (match e with
         | PCSEv.connected => 1
         | PCSEv.other => 0
         | _ => -1)) ∧
    (runCb [PCSEv.connected, PCSEv.disconnected, PCSEv.closed]).current = -1 ∧
    (runCb [PCSEv.connected, PCSEv.disconnected, PCSEv.closed]).current < 0 := by
  refine ⟨?_, by decide, by decide⟩
  intro e s
  cases e <;> simp [cbStep] <;> omega

/-- C4: the claim states every peer's frame queue is closed exactly once.
Because the callback hands the conn to the loop on every CONNECTED
transition, a peer whose connection goes CONNECTED, DISCONNECTED,
CONNECTED, then CLOSED is registered under two ids; the tick that observes
CLOSED runs close(conn.frames) once per registry entry, i.e. twice on the
same channel — in Go the second close panics the process. -/
theorem queue_closed_twice_on_duplicate_registration :
    ((run4 [Ev4.handoff 0, Ev4.handoff 0,
        Ev4.tick (fun _ => ConnState.Closed)]).conns.lookup 0 = some ⟨2⟩) ∧
    ((run4 [Ev4.handoff 0, Ev4.handoff 0,
        Ev4.tick (fun _ => ConnState.Closed)]).conns.lookup 0 ≠ some ⟨1⟩) := by
  refine ⟨rfl, by decide⟩

lemma ensureStarted_started (s : LoopState) : (ensureStarted s).started = true := by
  unfold ensureStarted
  split
  · assumption
  · rfl

lemma iterate_started (s : LoopState) (inp : TickInput) :
    (iterate s inp).started = true :=
  ensureStarted_started (addClients (idleAbort s) inp)

/-- C7: the claim states that at the top of every reachable iteration the
capture stream is running iff the registry is non-empty.  This fails on
the iteration right after the last peer was removed: starting idle, one
peer joins, capture starts, and the fan-out observes the peer CLOSED and
deletes it — the next iteration begins with the stream still running and
an empty registry. -/
theorem capture_running_with_empty_registry :
    Reachable { started := true, clients := [], nextID := 1 } ∧
    ¬ ((({ started := true, clients := [], nextID := 1 } : LoopState).started = true) ↔
        (({ started := true, clients := [], nextID := 1 } : LoopState).clients ≠ [])) := by
  constructor
  · exact Reachable.step loopInit c7Inp Reachable.init
  · simp

/-- C7 (amended): at the top of an iteration a non-empty registry implies
the stream is running, and the running-iff-non-empty equivalence holds
immediately after the iteration's empty-registry abort step (main.go lines
362-369) — i.e. before the loop blocks for a client or reads the device —
rather than at the very top of the iteration. -/
theorem capture_invariant_after_idle_abort :
    ∀ s : LoopState, Reachable s →
      ((s.clients ≠ [] → s.started = true) ∧
       ((idleAbort s).started = true ↔ (idleAbort s).clients ≠ [])) := by
  intro s h
  have h1 : s.clients ≠ [] → s.started = true := by
    induction h with
    | init => intro hc; exact absurd rfl hc
    | step s' inp h' ih => intro _; exact iterate_started s' inp
  refine ⟨h1, ?_⟩
  by_cases hc : s.clients = []
  · cases hss : s.started <;> simp [idleAbort, hc, hss]
  · cases hcl : s.clients with
    | nil => exact absurd hcl hc
    | cons a t =>
      have hst := h1 hc
      simp [idleAbort, hcl, hst]

/-- C7 (witness): the amended invariant instantiated at the initial loop
state, which is reachable by definition. -/
theorem capture_invariant_after_idle_abort_witness :
    (idleAbort loopInit).started = true ↔ (idleAbort loopInit).clients ≠ [] :=
  (capture_invariant_after_idle_abort loopInit Reachable.init).2

lemma tickEntry_cases (fi : Nat) (obs : Nat → ConnState) (e : Entry) :
    tickEntry fi obs e = e ∨
    tickEntry fi obs e = { e with registered := false, closed := true } ∨
    (e.queue.length < 10 ∧
      tickEntry fi obs e = { e with queue := e.queue ++ [fi], sent := e.sent + 1 }) ∨
    tickEntry fi obs e = { e with dropped := e.dropped + 1 } := by
  cases hr : e.registered with
  | false => left; simp [tickEntry, hr]
  | true =>
    cases ho : obs e.id with
    | Disconnected => left; simp [tickEntry, hr, ho]
    | Closed => right; left; simp [tickEntry, hr, ho]
    | Connected =>
      by_cases hl : e.queue.length < 10
      · right; right; left; exact ⟨hl, by simp [tickEntry, hr, ho, hl]⟩
      · right; right; right; simp [tickEntry, hr, ho, hl]

lemma inv2_step (s : BState) (ev : Ev) (h : Inv2 s) : Inv2 (step2 s ev) := by
  cases ev with
  | join =>
    intro e he
    simp only [step2] at he
    rcases List.mem_append.mp he with h1 | h1
    · exact h e h1
    · simp only [List.mem_singleton] at h1
      subst h1
      exact ⟨by simp [freshEntry], by simp [freshEntry]⟩
  | tick obs =>
    intro e' he'
    simp only [step2] at he'
    rcases List.mem_map.mp he' with ⟨e, he, rfl⟩
    obtain ⟨h1, h2⟩ := h e he
    have hr : (List.range s.ticks).Sublist (List.range (s.ticks + 1)) := by
      rw [List.range_succ]
      exact List.sublist_append_left _ _
    rcases tickEntry_cases s.ticks obs e with hc | hc | ⟨hl, hc⟩ | hc
    · rw [hc]; exact ⟨h1, h2.trans hr⟩
    · rw [hc]; exact ⟨h1, h2.trans hr⟩
    · rw [hc]
      constructor
      · simp only [List.length_append, List.length_cons, List.length_nil]
        omega
      · show (e.delivered ++ (e.queue ++ [s.ticks])).Sublist (List.range (s.ticks + 1))
        rw [List.range_succ, ← List.append_assoc]
        exact h2.append (List.Sublist.refl _)
    · rw [hc]; exact ⟨h1, h2.trans hr⟩
  | consume c =>
    intro e' he'
    simp only [step2] at he'
    rcases List.mem_map.mp he' with ⟨e, he, rfl⟩
    obtain ⟨h1, h2⟩ := h e he
    unfold consumeEntry
    by_cases hid : e.id = c
    · simp only [hid, if_pos rfl]
      cases hq : e.queue with
      | nil => exact ⟨h1, h2⟩
      | cons f rest =>
        constructor
        · rw [hq] at h1; simp at h1 ⊢; omega
        · show ((e.delivered ++ [f]) ++ rest).Sublist (List.range s.ticks)
          rw [List.append_assoc]
          simpa [hq] using h2
    · simp only [if_neg hid]
      exact ⟨h1, h2⟩

lemma inv2_foldl : ∀ (evs : List Ev) (s : BState), Inv2 s → Inv2 (List.foldl step2 s evs) := by
  intro evs
  induction evs with
  | nil => intro s h; exact h
  | cons ev rest ih => intro s h; exact ih (step2 s ev) (inv2_step s ev h)

lemma inv2_run (evs : List Ev) : Inv2 (run2 evs) := by
  apply inv2_foldl
  intro e he
  cases he

/-- C3: the claim states that on every tick, every peer in the registry —
including one observed DISCONNECTED — has the frame either enqueued or
counted as dropped, never neither.  The code (main.go lines 437-438) skips
a DISCONNECTED peer entirely: after a tick observing it DISCONNECTED, its
queue is unchanged (the frame did not enter it) and its dropped counter is
unchanged — neither happened. -/
theorem disconnected_peer_neither_enqueued_nor_dropped :
    (run2 [Ev.join]).entries = [freshEntry 0] ∧
    (freshEntry 0).registered = true ∧
    ¬ enqueuedThisTick (freshEntry 0)
        (tickEntry 0 (fun _ => ConnState.Disconnected) (freshEntry 0)) 0 ∧
    ¬ droppedThisTick (freshEntry 0)
        (tickEntry 0 (fun _ => ConnState.Disconnected) (freshEntry 0)) := by
  refine ⟨rfl, rfl, ?_, ?_⟩
  · simp [enqueuedThisTick, tickEntry, freshEntry]
  · simp [droppedThisTick, tickEntry, freshEntry]

/-- C3 (amended): on every tick, for every peer in the registry observed
CONNECTED the encoded frame either enters the peer's queue or is counted
as dropped for it — never both and never neither; a peer observed
DISCONNECTED is skipped unchanged (neither enqueued nor counted), and a
peer observed CLOSED is removed from the registry with neither an enqueue
nor a drop. -/
theorem tick_delivery_amended :
    ∀ (frameIdx : Nat) (obs : Nat → ConnState) (e : Entry), e.registered = true →
      ((obs e.id = ConnState.Connected →
         ((enqueuedThisTick e (tickEntry frameIdx obs e) frameIdx ∨
           droppedThisTick e (tickEntry frameIdx obs e)) ∧
          ¬ (enqueuedThisTick e (tickEntry frameIdx obs e) frameIdx ∧
             droppedThisTick e (tickEntry frameIdx obs e)))) ∧
       (obs e.id = ConnState.Disconnected → tickEntry frameIdx obs e = e) ∧
       (obs e.id = ConnState.Closed →
         (tickEntry frameIdx obs e).queue = e.queue ∧
         (tickEntry frameIdx obs e).dropped = e.dropped ∧
         (tickEntry frameIdx obs e).registered = false)) := by
  intro fi obs e hreg
  refine ⟨?_, ?_, ?_⟩
  · intro ho
    by_cases hl : e.queue.length < 10
    · constructor
      · left
        simp [enqueuedThisTick, tickEntry, hreg, ho, hl]
      · rintro ⟨-, hd⟩
        simp only [droppedThisTick, tickEntry, hreg, ho, hl, if_pos, if_true] at hd
        omega
    · constructor
      · right
        simp [droppedThisTick, tickEntry, hreg, ho, hl]
      · rintro ⟨he, -⟩
        simp only [enqueuedThisTick, tickEntry, hreg, ho, hl, if_true] at he
        have := congrArg List.length he
        simp at this
  · intro ho
    simp [tickEntry, hreg, ho]
  · intro ho
    simp [tickEntry, hreg, ho]

/-- C3 (witness): for a freshly registered peer observed CONNECTED with an
empty queue, tick 3 is enqueued and not dropped. -/
theorem tick_delivery_amended_witness :
    (enqueuedThisTick (freshEntry 1) (tickEntry 3 obsConnected (freshEntry 1)) 3 ∨
     droppedThisTick (freshEntry 1) (tickEntry 3 obsConnected (freshEntry 1))) ∧
    ¬ (enqueuedThisTick (freshEntry 1) (tickEntry 3 obsConnected (freshEntry 1)) 3 ∧
       droppedThisTick (freshEntry 1) (tickEntry 3 obsConnected (freshEntry 1))) :=
  (tick_delivery_amended 3 obsConnected (freshEntry 1) rfl).1 rfl

/-- C5: every peer's frame queue has capacity exactly 10 — in every
reachable state no queue holds more than 10 frames; on a tick where a
CONNECTED peer's queue holds fewer than 10 frames the non-blocking enqueue
succeeds, appends exactly the new frame and increments sent by one
(dropped and the rest of the entry unchanged), and on a tick where it
holds 10 frames the frame is not enqueued and dropped increments by one
(queue, sent and the rest unchanged); the producer never blocks — the
tick is a total function of the entry. -/
theorem queue_capacity_ten :
    (∀ (evs : List Ev) (e : Entry), e ∈ (run2 evs).entries → e.queue.length ≤ 10) ∧
    (∀ (frameIdx : Nat) (obs : Nat → ConnState) (e : Entry),
      e.registered = true → obs e.id = ConnState.Connected →
      ((e.queue.length < 10 →
         tickEntry frameIdx obs e =
           { e with queue := e.queue ++ [frameIdx], sent := e.sent + 1 }) ∧
       (e.queue.length = 10 →
         tickEntry frameIdx obs e = { e with dropped := e.dropped + 1 }))) := by
  constructor
  · intro evs e he
    exact ((inv2_run evs) e he).1
  · intro fi obs e hreg hconn
    constructor
    · intro hl
      simp [tickEntry, hreg, hconn, hl]
    · intro hl
      have hnl : ¬ e.queue.length < 10 := by omega
      simp [tickEntry, hreg, hconn, hnl]

/-- C5 (witness): a freshly registered peer has a queue within capacity,
and a CONNECTED tick on its empty queue enqueues the frame and bumps
sent. -/
theorem queue_capacity_ten_witness :
    (freshEntry 0).queue.length ≤ 10 ∧
    tickEntry 5 obsConnected (freshEntry 0) =
      { freshEntry 0 with
        queue := (freshEntry 0).queue ++ [5], sent := (freshEntry 0).sent + 1 } :=
  ⟨queue_capacity_ten.1 [Ev.join] (freshEntry 0) (by decide),
   (queue_capacity_ten.2 5 obsConnected (freshEntry 0) rfl rfl).1 (by decide)⟩

lemma updateConn_mem (conns : List (Nat × ConnObj)) (c : Nat) (g : ConnObj → ConnObj)
    (p : Nat × ConnObj) (hp : p ∈ updateConn conns c g) :
    ∃ q ∈ conns, p.1 = q.1 ∧ (p = q ∨ (q.1 = c ∧ p = (q.1, g q.2))) := by
  simp only [updateConn, List.mem_map] at hp
  rcases hp with ⟨q, hq, hpq⟩
  by_cases hc : q.1 = c
  · rw [if_pos hc] at hpq
    exact ⟨q, hq, by rw [← hpq], Or.inr ⟨hc, hpq.symm⟩⟩
  · rw [if_neg hc] at hpq
    exact ⟨q, hq, by rw [← hpq], Or.inl hpq.symm⟩

lemma fan_fold (t : Nat) (obs : Nat → ConnState) :
    ∀ (reg : List (Nat × Nat)) (conns : List (Nat × ConnObj)),
      (reg.map Prod.snd).Nodup →
      (∀ p ∈ conns, (p.2.delivered ++ p.2.queue).Sublist (List.range (t + 1))) →
      (∀ p ∈ conns, p.1 ∈ reg.map Prod.snd →
        (p.2.delivered ++ p.2.queue).Sublist (List.range t)) →
      ∀ p ∈ List.foldl (fanEntry t obs) conns reg,
        (p.2.delivered ++ p.2.queue).Sublist (List.range (t + 1)) := by
  intro reg
  induction reg with
  | nil =>
    intro conns _ hQ _ p hp
    exact hQ p hp
  | cons e rest ih =>
    intro conns hnd hQ hP p hp
    rw [List.map_cons, List.nodup_cons] at hnd
    obtain ⟨hne, hnd'⟩ := hnd
    rw [List.foldl_cons] at hp
    refine ih (fanEntry t obs conns e) hnd' ?_ ?_ p hp
    · intro q hq
      cases ho : obs e.2 with
      | Disconnected =>
        simp only [fanEntry, ho] at hq
        exact hQ q hq
      | Closed =>
        simp only [fanEntry, ho] at hq
        rcases updateConn_mem _ _ _ q hq with ⟨q0, hq0, hfst, hcase⟩
        rcases hcase with rfl | ⟨hc, rfl⟩
        · exact hQ _ hq0
        · show ((closeConnObj q0.2).delivered ++
              (closeConnObj q0.2).queue).Sublist (List.range (t + 1))
          exact hQ q0 hq0
      | Connected =>
        simp only [fanEntry, ho] at hq
        rcases updateConn_mem _ _ _ q hq with ⟨q0, hq0, hfst, hcase⟩
        rcases hcase with rfl | ⟨hc, rfl⟩
        · exact hQ _ hq0
        · show ((enqueueConnObj t q0.2).delivered ++
              (enqueueConnObj t q0.2).queue).Sublist (List.range (t + 1))
          unfold enqueueConnObj
          by_cases hl : q0.2.queue.length < 10
          · rw [if_pos hl]
            have hq0P : (q0.2.delivered ++ q0.2.queue).Sublist (List.range t) := by
              refine hP _ hq0 ?_
              rw [List.map_cons, hc]
              exact List.mem_cons_self _ _
            show (q0.2.delivered ++ (q0.2.queue ++ [t])).Sublist (List.range (t + 1))
            rw [List.range_succ, ← List.append_assoc]
            exact hq0P.append (List.Sublist.refl _)
          · rw [if_neg hl]
            exact hQ _ hq0
    · intro q hq hqrest
      cases ho : obs e.2 with
      | Disconnected =>
        simp only [fanEntry, ho] at hq
        refine hP q hq ?_
        rw [List.map_cons]
        exact List.mem_cons_of_mem _ hqrest
      | Closed =>
        simp only [fanEntry, ho] at hq
        rcases updateConn_mem _ _ _ q hq with ⟨q0, hq0, hfst, hcase⟩
        rcases hcase with rfl | ⟨hc, rfl⟩
        · refine hP _ hq0 ?_
          rw [List.map_cons]
          exact List.mem_cons_of_mem _ hqrest
        · show ((closeConnObj q0.2).delivered ++
              (closeConnObj q0.2).queue).Sublist (List.range t)
          refine hP _ hq0 ?_
          rw [List.map_cons, hc]
          exact List.mem_cons_self _ _
      | Connected =>
        simp only [fanEntry, ho] at hq
        rcases updateConn_mem _ _ _ q hq with ⟨q0, hq0, hfst, hcase⟩
        rcases hcase with rfl | ⟨hc, rfl⟩
        · refine hP _ hq0 ?_
          rw [List.map_cons]
          exact List.mem_cons_of_mem _ hqrest
        · exfalso
          apply hne
          rw [← hc]
          exact hqrest

lemma invC_foldl :
    ∀ (evs : List EvC) (s : CState),
      (handoffIds evs).Nodup →
      (∀ c ∈ handoffIds evs, c ∉ s.registry.map Prod.snd) →
      (s.registry.map Prod.snd).Nodup →
      (∀ p ∈ s.conns, (p.2.delivered ++ p.2.queue).Sublist (List.range s.ticks)) →
      ∀ p ∈ (List.foldl stepC s evs).conns,
        (p.2.delivered ++ p.2.queue).Sublist
          (List.range (List.foldl stepC s evs).ticks) := by
  intro evs
  induction evs with
  | nil => intro s _ _ _ h2; exact h2
  | cons ev rest ih =>
    intro s hnd hfr h1 h2
    rw [List.foldl_cons]
    cases ev with
    | handoff c =>
      have hids : handoffIds (EvC.handoff c :: rest) = c :: handoffIds rest := rfl
      rw [hids, List.nodup_cons] at hnd
      obtain ⟨hcr, hnd'⟩ := hnd
      have hcm : c ∉ s.registry.map Prod.snd := by
        apply hfr
        rw [hids]
        exact List.mem_cons_self _ _
      refine ih (stepC s (EvC.handoff c)) hnd' ?_ ?_ ?_
      · intro c' hc'
        have hc'old : c' ∉ s.registry.map Prod.snd := by
          apply hfr
          rw [hids]
          exact List.mem_cons_of_mem _ hc'
        have hc'c : c' ≠ c := by
          intro h
          rw [h] at hc'
          exact hcr hc'
        show c' ∉ (s.registry ++ [(s.nextID, c)]).map Prod.snd
        rw [List.map_append]
        intro hmem
        rcases List.mem_append.mp hmem with h | h
        · exact hc'old h
        · simp only [List.map_cons, List.map_nil, List.mem_singleton] at h
          exact hc'c h
      · show ((s.registry ++ [(s.nextID, c)]).map Prod.snd).Nodup
        rw [List.map_append]
        refine List.Nodup.append h1 ?_ ?_
        · simp
        · intro a ha hb
          simp only [List.map_cons, List.map_nil, List.mem_singleton] at hb
          rw [hb] at ha
          exact hcm ha
      · intro p hp
        show (p.2.delivered ++ p.2.queue).Sublist (List.range s.ticks)
        simp only [stepC] at hp
        split at hp
        · exact h2 p hp
        · rcases List.mem_append.mp hp with h | h
          · exact h2 p h
          · simp only [List.mem_singleton] at h
            rw [h]
            exact List.nil_sublist _
    | tick obs =>
      have hids : handoffIds (EvC.tick obs :: rest) = handoffIds rest := rfl
      rw [hids] at hnd hfr
      have hsub : ((s.registry.filter
            (fun e => match obs e.2 with | ConnState.Closed => false | _ => true)).map
              Prod.snd).Sublist (s.registry.map Prod.snd) :=
        (List.filter_sublist _).map _
      refine ih (stepC s (EvC.tick obs)) hnd ?_ ?_ ?_
      · intro c' hc' hmem
        exact (hfr c' hc') (hsub.subset hmem)
      · exact List.Nodup.sublist hsub h1
      · intro p hp
        show (p.2.delivered ++ p.2.queue).Sublist (List.range (s.ticks + 1))
        simp only [stepC] at hp
        refine fan_fold s.ticks obs s.registry s.conns h1 ?_ ?_ p hp
        · intro q hq
          refine (h2 q hq).trans ?_
          rw [List.range_succ]
          exact List.sublist_append_left _ _
        · intro q hq _
          exact h2 q hq
    | consume c =>
      have hids : handoffIds (EvC.consume c :: rest) = handoffIds rest := rfl
      rw [hids] at hnd hfr
      refine ih (stepC s (EvC.consume c)) hnd hfr h1 ?_
      intro p hp
      show (p.2.delivered ++ p.2.queue).Sublist (List.range s.ticks)
      simp only [stepC] at hp
      rcases updateConn_mem _ _ _ p hp with ⟨q0, hq0, hfst, hcase⟩
      rcases hcase with rfl | ⟨hc, rfl⟩
      · exact h2 _ hq0
      · show ((consumeConnObj q0.2).delivered ++
            (consumeConnObj q0.2).queue).Sublist (List.range s.ticks)
        unfold consumeConnObj
        cases hq : q0.2.queue with
        | nil =>
          simp only [hq]
          have h := h2 q0 hq0
          rw [hq] at h
          simpa using h
        | cons f r =>
          simp only [hq]
          have h := h2 q0 hq0
          rw [hq] at h
          show ((q0.2.delivered ++ [f]) ++ r).Sublist (List.range s.ticks)
          rw [List.append_assoc]
          exact h

/-- C8: the claim states the frames written to a peer's track form a
CONTIGUOUS subsequence of the production order.  It fails in two ways.
Gap: with one always-CONNECTED peer, 11 ticks fill the capacity-10
channel and drop frame 10; after one receive, tick 11's frame is
enqueued, and draining yields 0,1,2,3,4,5,6,7,8,9,11 — frame 10 is
missing inside the delivered sequence.  Duplication: the same conn handed
off twice (the callback re-sends it on every CONNECTED transition) is
registered under two ids sharing one channel, so one tick enqueues frame
0 twice and the track receives 0,0 — not even a subsequence of the
production order 0. -/
theorem delivered_sequence_not_contiguous :
    ((runC cGapEvs).conns.map (fun p => p.2.delivered) =
      [[0, 1, 2, 3, 4, 5, 6, 7, 8, 9, 11]]) ∧
    isContiguous [0, 1, 2, 3, 4, 5, 6, 7, 8, 9, 11] = false ∧
    (runC cGapEvs).ticks = 12 ∧
    ((runC cDupEvs).conns.map (fun p => p.2.delivered) = [[0, 0]]) ∧
    (runC cDupEvs).ticks = 1 ∧
    ¬ ([0, 0].Sublist (List.range 1)) := by
  refine ⟨rfl, rfl, rfl, rfl, rfl, ?_⟩
  intro h
  have hl := h.length_le
  simp at hl

/-- C8 (amended): for every peer handed to the broadcast loop at most once
— i.e. as long as no conn is re-sent on clientConnected by a repeated
CONNECTED transition — the sequence of frames written to its track is a
subsequence of the global production order 0, 1, ..., ticks-1: capture
order is preserved with no duplicates and no reordering, but the sequence
may have gaps where frames were dropped on a full queue or skipped while
the peer was DISCONNECTED.  (A conn handed off twice is registered under
two ids sharing one channel, and its track then receives duplicated
frames.) -/
theorem delivered_sublist_of_production :
    ∀ evs : List EvC, (handoffIds evs).Nodup →
      ∀ p ∈ (runC evs).conns,
        p.2.delivered.Sublist (List.range (runC evs).ticks) := by
  intro evs hnd p hp
  have h := invC_foldl evs cInit hnd (by intro c hc; simp [cInit])
    (by simp [cInit]) (by intro p hp; simp [cInit] at hp) p hp
  exact (List.sublist_append_left _ _).trans h

/-- C8 (witness): a single handoff (distinct by construction), one
CONNECTED tick and one receive: the conn has been written frame 0, a
subsequence of the one-frame production order. -/
theorem delivered_sublist_of_production_witness :
    ((0, (⟨[], false, [0]⟩ : ConnObj)) : Nat × ConnObj).2.delivered.Sublist
      (List.range (runC cSubEvs).ticks) :=
  delivered_sublist_of_production cSubEvs (by decide)
    ((0, ⟨[], false, [0]⟩)) (by decide)

lemma iceObjects_all (k : Nat) (l : List Outcome) :
    (iceObjects k l).all (fun o => o == RespObj.candidate || o == RespObj.errorObj) = true := by
  induction l generalizing k with
  | nil => cases k <;> rfl
  | cons a rest ih =>
    cases k with
    | zero => rfl
    | succ k =>
      cases a with
      | ok => simpa [iceObjects] using ih k
      | fail => rfl

/-- C6: for every signaling request that reaches the streaming phase, the
first JSON object written to the response body is the SDP answer, and
every later object is either a trickled ICE candidate or the in-band
error object. -/
theorem sdp_answer_first_then_candidates :
    ∀ (inp : HandlerInput) (objs : List RespObj),
      handleClient inp = HResp.stream objs →
      objs.head? = some RespObj.answer ∧
      objs.tail.all (fun o => o == RespObj.candidate || o == RespObj.errorObj) = true := by
  intro inp objs h
  unfold handleClient at h
  split_ifs at h
  all_goals first
    | exact HResp.noConfusion h
    | (injection h with h
       subst h
       exact ⟨rfl, iceObjects_all inp.ctxBudget inp.ice⟩)

/-- C6 (witness): a fully successful request whose ICE script gathers two
candidates and then fails to encode the third: the body is the answer
followed by two candidate objects and the error object. -/
theorem sdp_answer_first_then_candidates_witness :
    [RespObj.answer, RespObj.candidate, RespObj.candidate, RespObj.errorObj].head? =
      some RespObj.answer ∧
    [RespObj.answer, RespObj.candidate, RespObj.candidate,
      RespObj.errorObj].tail.all (fun o => o == RespObj.candidate || o == RespObj.errorObj) =
      true :=
  sdp_answer_first_then_candidates c6Inp
    [RespObj.answer, RespObj.candidate, RespObj.candidate, RespObj.errorObj] rfl

lemma str_append_assoc (a b c : String) : a ++ b ++ c = a ++ (b ++ c) := by
  rcases a with ⟨la⟩
  rcases b with ⟨lb⟩
  rcases c with ⟨lc⟩
  show String.mk ((la ++ lb) ++ lc) = String.mk (la ++ (lb ++ lc))
  rw [List.append_assoc]

lemma invalid_json_starts (e : String) :
    "invalid JSON: " ++ e = "invalid JSON:" ++ (" " ++ e) := by
  rw [← str_append_assoc]
  have h : ("invalid JSON:" ++ " " : String) = "invalid JSON: " := by decide
  rw [h]

/-- C9: a non-POST request to /sdp is answered 404; a POST whose body does
not decode as a JSON SDP offer is answered 400 with a body beginning with
"invalid JSON:"; and every failure after decoding — peer-connection
creation, track setup (initConn), SDP set/create, or encoding the
answer — is answered 500. -/
theorem sdp_http_status_codes :
    ∀ inp : HandlerInput,
      (inp.methodPost = false → respStatus (handleClient inp) = 404) ∧
      (inp.methodPost = true → inp.decodeOk = false →
        respStatus (handleClient inp) = 400 ∧
        ∃ rest, respBody (handleClient inp) = "invalid JSON:" ++ rest) ∧
      (inp.methodPost = true → inp.decodeOk = true →
        (inp.newPC = Outcome.fail ∨ inp.initC = Outcome.fail ∨
         inp.setRemote = Outcome.fail ∨ inp.createAnswer = Outcome.fail ∨
         inp.setLocal = Outcome.fail ∨ inp.encodeAnswer = Outcome.fail) →
        respStatus (handleClient inp) = 500) := by
  intro inp
  obtain ⟨mp, dok, derr, npc, ic, sr, ca, sl, fl, ea, bud, ice⟩ := inp
  refine ⟨?_, ?_, ?_⟩
  · intro h
    subst h
    rfl
  · intro h1 h2
    subst h1
    subst h2
    exact ⟨rfl, ⟨" " ++ derr, invalid_json_starts derr⟩⟩
  · intro h1 h2 h3
    subst h1
    subst h2
    cases npc <;> cases ic <;> cases sr <;> cases ca <;> cases sl <;> cases fl <;> cases ea <;>
      simp_all [handleClient, respStatus]

/-- C9 (witness): a GET is answered 404; a POST with an undecodable body is
answered 400 with the "invalid JSON:" prefix; a POST failing at
SetRemoteDescription is answered 500. -/
theorem sdp_http_status_codes_witness :
    respStatus (handleClient c9InpA) = 404 ∧
    respStatus (handleClient c9InpB) = 400 ∧
    respStatus (handleClient c9InpC) = 500 :=
  ⟨(sdp_http_status_codes c9InpA).1 rfl,
   ((sdp_http_status_codes c9InpB).2.1 rfl rfl).1,
   (sdp_http_status_codes c9InpC).2.2 rfl rfl (Or.inr (Or.inr (Or.inl rfl)))⟩
